import Mathlib

/-!
Verification development for the ALONEA (ALO) DeFi contracts:
a shallow embedding in Lean 4 of the `ALOStaking` tier-based staking engine,
the `ALOToken` fee-splitting BEP-20 ledger, and the `ALOGovernance`
proposal/voting state machine, together with theorems settling the
specification's claims about them.

Conventions of the embedding:
- `uint256` values are modelled as `Nat`.  Solidity 0.8 checked arithmetic
  reverts on overflow rather than wrapping; in every operation below the
  quantities involved stay far below `2^256` in any state reachable from the
  modelled constructors (balances are bounded by the conserved supply), so
  unbounded `Nat` arithmetic coincides with the source semantics on all
  states the theorems speak about.  Subtractions are guarded by the same
  `require` checks the source performs.
- Addresses are `Nat` (for the staking and governance contracts, whose
  claims never sum over all addresses) or `Fin k` for an arbitrary
  population of `k` accounts (for the token ledger, whose supply-conservation
  claim sums every balance).
- Reverting operations return `Except`/`Option` errors; a revert leaves the
  pre-state unchanged, which the step functions realise with `getD`.
- Solidity mappings have all-zero defaults, so a "deleted" stake record is
  the all-zero record and a never-written receipt is the all-false receipt.
-/

/-! ## ALOStaking: data model -/

/-- Staking tiers, in the source declaration order
`enum Tier { FREE, BRONZE, SILVER, PLATINUM, DIAMOND }`. -/
inductive Tier where
  | FREE
  | BRONZE
  | SILVER
  | PLATINUM
  | DIAMOND
deriving DecidableEq

/-- `struct TierConfig { uint256 requiredAmount; uint256 multiplier; }`
(multiplier in basis points, 1.0x = 10000). -/
structure TierConfig where
  requiredAmount : Nat
  multiplier : Nat
deriving DecidableEq

/-- `struct StakeInfo { uint256 amount; uint256 startTime; uint256 lastClaimTime;
Tier tier; uint256 rewardDebt; }`. -/
structure StakeInfo where
  amount : Nat
  startTime : Nat
  lastClaimTime : Nat
  tier : Tier
  rewardDebt : Nat
deriving DecidableEq

/-- The all-zero `StakeInfo`: the default value of the `stakes` mapping and
the result of `delete stakes[user]` (enum zero value is `FREE`). -/
def zeroStakeInfo : StakeInfo :=
  { amount := 0, startTime := 0, lastClaimTime := 0, tier := Tier.FREE, rewardDebt := 0 }

/-- Storage of the `ALOStaking` contract, together with the slice of the ALO
token ledger it interacts with: `bal` gives user token balances and
`contractBal` the token balance held by the staking contract itself
(`aloToken.balanceOf(address(this))`).  Token transfers performed by the
contract move amounts between these, mirroring the `IERC20` collaborator
interface the source programs against. -/
structure StakingState where
  rewardRate : Nat
  totalStaked : Nat
  tierConfigs : Tier → TierConfig
  stakes : Nat → StakeInfo
  tierStakers : Tier → Nat
  tierTotalStaked : Tier → Nat
  bal : Nat → Nat
  contractBal : Nat

/-- The tier table installed by the `ALOStaking` constructor
(thresholds in 18-decimal base units, multipliers in basis points). -/
def initialTierConfigs : Tier → TierConfig
  | Tier.FREE => { requiredAmount := 0, multiplier := 10000 }
  | Tier.BRONZE => { requiredAmount := 100 * 10 ^ 18, multiplier := 10000 }
  | Tier.SILVER => { requiredAmount := 500 * 10 ^ 18, multiplier := 11000 }
  | Tier.PLATINUM => { requiredAmount := 1000 * 10 ^ 18, multiplier := 12500 }
  | Tier.DIAMOND => { requiredAmount := 1500 * 10 ^ 18, multiplier := 15000 }

/-- State produced by the `ALOStaking` constructor, parameterised (like the
deployment) by the reward rate, and by the initial token balances of users. -/
def stakingInit (rate : Nat) (bal0 : Nat → Nat) : StakingState :=
  { rewardRate := rate
    totalStaked := 0
    tierConfigs := initialTierConfigs
    stakes := fun _ => zeroStakeInfo
    tierStakers := fun _ => 0
    tierTotalStaked := fun _ => 0
    bal := bal0
    contractBal := 0 }

/-- `ALOStaking._getTierForAmount`: linear scan from the highest tier down. -/
def getTierForAmount (cfg : Tier → TierConfig) (amount : Nat) : Tier :=
  if (cfg Tier.DIAMOND).requiredAmount ≤ amount then Tier.DIAMOND
  else if (cfg Tier.PLATINUM).requiredAmount ≤ amount then Tier.PLATINUM
  else if (cfg Tier.SILVER).requiredAmount ≤ amount then Tier.SILVER
  else if (cfg Tier.BRONZE).requiredAmount ≤ amount then Tier.BRONZE
  else Tier.FREE

/-- The tier scan order stated by the specification: highest tier first,
`FREE` as fallback. -/
def tierScanOrder : List Tier :=
  [Tier.DIAMOND, Tier.PLATINUM, Tier.SILVER, Tier.BRONZE]

/-- Tier assignment as the specification words it: the first tier in the
highest-to-lowest scan whose required amount is at most the staked amount,
with `FREE` as fallback.  Used to compare against `getTierForAmount`. -/
def specFirstMatchTier (cfg : Tier → TierConfig) (amount : Nat) : Tier :=
  (tierScanOrder.find? fun t => decide ((cfg t).requiredAmount ≤ amount)).getD Tier.FREE

/-- `ALOStaking.calculateRewards`, evaluated at timestamp `now`
(`block.timestamp`).  Two truncating divisions, exactly as in the source:
`baseRewards = amount * rewardRate * timeElapsed / 1e18` then
`rewards = baseRewards * tier.multiplier / 10000`. -/
def calculateRewards (s : StakingState) (user : Nat) (now : Nat) : Nat :=
  let st := s.stakes user
  if st.amount = 0 then 0
  else
    let timeElapsed := now - st.lastClaimTime
    let cfg := s.tierConfigs st.tier
    let baseRewards := st.amount * s.rewardRate * timeElapsed / 10 ^ 18
    baseRewards * cfg.multiplier / 10000

/-- Errors raised by the staking operations (the source's `require` strings). -/
inductive StakeErr where
  | invalidAmount
  | insufficientStake
  | noActiveStake
  | insufficientRewards
  | insufficientBalance
deriving DecidableEq

/-- `ALOStaking._claimRewards`: requires an active stake; when the pending
reward is positive it checkpoints `lastClaimTime`, accumulates `rewardDebt`,
requires the contract's token balance to cover `totalStaked + rewards`, and
pays the reward out of the contract balance. -/
def claimRewardsAux (s : StakingState) (user : Nat) (now : Nat) :
    Except StakeErr StakingState :=
  let st := s.stakes user
  if st.amount = 0 then Except.error StakeErr.noActiveStake
  else
    let rewards := calculateRewards s user now
    if 0 < rewards then
      if s.contractBal < s.totalStaked + rewards then
        Except.error StakeErr.insufficientRewards
      else
        Except.ok
          { s with
            stakes := Function.update s.stakes user
              { st with lastClaimTime := now, rewardDebt := st.rewardDebt + rewards }
            contractBal := s.contractBal - rewards
            bal := Function.update s.bal user (s.bal user + rewards) }
    else Except.ok s

/-- `ALOStaking.claimRewards` (the external entry point). -/
def claimRewards (s : StakingState) (sender : Nat) (now : Nat) :
    Except StakeErr StakingState :=
  claimRewardsAux s sender now

/-- `ALOStaking.stake`: settle rewards (or initialise the record's
timestamps), pull `amount` tokens from the caller, then update the stake
record, the tier statistics and `totalStaked` exactly as the source does. -/
def stake (s : StakingState) (sender : Nat) (amount : Nat) (now : Nat) :
    Except StakeErr StakingState :=
  if amount = 0 then Except.error StakeErr.invalidAmount
  else do
    let s1 ←
      if 0 < (s.stakes sender).amount then claimRewardsAux s sender now
      else
        Except.ok
          { s with
            stakes := Function.update s.stakes sender
              { s.stakes sender with startTime := now, lastClaimTime := now } }
    let s2 ←
      if s1.bal sender < amount then Except.error StakeErr.insufficientBalance
      else
        Except.ok
          { s1 with
            bal := Function.update s1.bal sender (s1.bal sender - amount)
            contractBal := s1.contractBal + amount }
    let st := s2.stakes sender
    let oldAmount := st.amount
    let oldTier := st.tier
    let newAmount := oldAmount + amount
    let newTier := getTierForAmount s2.tierConfigs newAmount
    let s3 :=
      { s2 with
        stakes := Function.update s2.stakes sender
          { st with amount := newAmount, tier := newTier } }
    let s4 :=
      if oldAmount = 0 then
        { s3 with
          tierStakers := Function.update s3.tierStakers newTier
            (s3.tierStakers newTier + 1) }
      else if oldTier ≠ newTier then
        { s3 with
          tierStakers :=
            Function.update
              (Function.update s3.tierStakers oldTier (s3.tierStakers oldTier - 1))
              newTier
              (Function.update s3.tierStakers oldTier (s3.tierStakers oldTier - 1) newTier + 1)
          tierTotalStaked := Function.update s3.tierTotalStaked oldTier
            (s3.tierTotalStaked oldTier - oldAmount) }
      else s3
    Except.ok
      { s4 with
        tierTotalStaked := Function.update s4.tierTotalStaked newTier
          (s4.tierTotalStaked newTier + amount)
        totalStaked := s4.totalStaked + amount }

/-- `ALOStaking.unstake`: checks, reward settlement, stake-record and
statistics updates, then the principal transfer back to the caller —
in the source's order. -/
def unstake (s : StakingState) (sender : Nat) (amount : Nat) (now : Nat) :
    Except StakeErr StakingState :=
  if (s.stakes sender).amount < amount then Except.error StakeErr.insufficientStake
  else if amount = 0 then Except.error StakeErr.invalidAmount
  else do
    let s1 ← claimRewardsAux s sender now
    let st := s1.stakes sender
    let oldTier := st.tier
    let newAmount := st.amount - amount
    let newTier := getTierForAmount s1.tierConfigs newAmount
    let s2 :=
      { s1 with
        stakes := Function.update s1.stakes sender { st with amount := newAmount } }
    let s3 :=
      if newAmount = 0 then
        { s2 with
          tierStakers := Function.update s2.tierStakers oldTier
            (s2.tierStakers oldTier - 1)
          stakes := Function.update s2.stakes sender zeroStakeInfo }
      else if oldTier ≠ newTier then
        { s2 with
          tierStakers :=
            Function.update
              (Function.update s2.tierStakers oldTier (s2.tierStakers oldTier - 1))
              newTier
              (Function.update s2.tierStakers oldTier (s2.tierStakers oldTier - 1) newTier + 1)
          tierTotalStaked := Function.update s2.tierTotalStaked newTier
            (s2.tierTotalStaked newTier + newAmount)
          stakes := Function.update s2.stakes sender
            { st with amount := newAmount, tier := newTier } }
      else s2
    let s4 :=
      { s3 with
        tierTotalStaked := Function.update s3.tierTotalStaked oldTier
          (s3.tierTotalStaked oldTier - amount)
        totalStaked := s3.totalStaked - amount }
    if s4.contractBal < amount then Except.error StakeErr.insufficientBalance
    else
      Except.ok
        { s4 with
          contractBal := s4.contractBal - amount
          bal := Function.update s4.bal sender (s4.bal sender + amount) }

/-- `ALOStaking.emergencyWithdraw`: returns the full principal, skipping
reward settlement, deleting the record and updating the statistics. -/
def emergencyWithdraw (s : StakingState) (sender : Nat) :
    Except StakeErr StakingState :=
  let st := s.stakes sender
  if st.amount = 0 then Except.error StakeErr.noActiveStake
  else
    let amount := st.amount
    let tier := st.tier
    let s1 :=
      { s with
        tierStakers := Function.update s.tierStakers tier (s.tierStakers tier - 1)
        tierTotalStaked := Function.update s.tierTotalStaked tier
          (s.tierTotalStaked tier - amount)
        totalStaked := s.totalStaked - amount
        stakes := Function.update s.stakes sender zeroStakeInfo }
    if s1.contractBal < amount then Except.error StakeErr.insufficientBalance
    else
      Except.ok
        { s1 with
          contractBal := s1.contractBal - amount
          bal := Function.update s1.bal sender (s1.bal sender + amount) }

/-- Sum of `tierTotalStaked` over the five tiers. -/
def sumTierTotal (s : StakingState) : Nat :=
  s.tierTotalStaked Tier.FREE + s.tierTotalStaked Tier.BRONZE +
    s.tierTotalStaked Tier.SILVER + s.tierTotalStaked Tier.PLATINUM +
    s.tierTotalStaked Tier.DIAMOND

/-- Sum of `tierStakers` over the five tiers. -/
def sumTierStakers (s : StakingState) : Nat :=
  s.tierStakers Tier.FREE + s.tierStakers Tier.BRONZE +
    s.tierStakers Tier.SILVER + s.tierStakers Tier.PLATINUM +
    s.tierStakers Tier.DIAMOND

/-- The two-operation trace that breaks the tier-total bookkeeping: user `0`
stakes `50` wei (tier `FREE`), then stakes a further `100 * 10^18`
(crossing into `BRONZE`).  Both operations happen at timestamp `0` with
reward rate `0`, so reward settlement is a no-op. -/
def tierBugTrace : Except StakeErr StakingState := do
  let s1 ← stake (stakingInit 0 fun _ => 10 ^ 21) 0 50 0
  stake s1 0 (100 * 10 ^ 18) 0

/-! ## ALOToken: fee-splitting ledger -/

/-- `BUYBACK_FEE` (basis points). -/
def BUYBACK_FEE : Nat := 100

/-- `LIQUIDITY_FEE` (basis points). -/
def LIQUIDITY_FEE : Nat := 50

/-- `TREASURY_FEE` (basis points). -/
def TREASURY_FEE : Nat := 50

/-- `FEE_DENOMINATOR`. -/
def FEE_DENOMINATOR : Nat := 10000

/-- The supply minted by the constructor: `100_000_000 * 10**decimals()`
with the default 18 decimals. -/
def INITIAL_SUPPLY : Nat := 100000000 * 10 ^ 18

/-- `type(uint256).max`, the sentinel for an infinite allowance in
OpenZeppelin's `_spendAllowance`. -/
def MAXUINT256 : Nat := 2 ^ 256 - 1

/-- Storage of `ALOToken` over an arbitrary finite population of `k`
accounts: ERC-20 balances and allowances plus the contract's own fields. -/
structure TokenState (k : Nat) where
  bal : Fin k → Nat
  allowance : Fin k → Fin k → Nat
  totalSupplyAmt : Nat
  totalBurned : Nat
  totalFees : Nat
  isExcludedFromFee : Fin k → Bool
  buybackWallet : Fin k
  liquidityWallet : Fin k
  treasuryWallet : Fin k

/-- OpenZeppelin `ERC20._update` with both endpoints non-zero: checks the
sender balance and moves `v` from `f` to `t` (sequential read-modify-write,
so `f = t` is handled as in the source). -/
def baseTransfer {k : Nat} (s : TokenState k) (f t : Fin k) (v : Nat) :
    Option (TokenState k) :=
  if s.bal f < v then none
  else
    some { s with
      bal := Function.update (Function.update s.bal f (s.bal f - v)) t
        (Function.update s.bal f (s.bal f - v) t + v) }

/-- OpenZeppelin `ERC20._update` with `to = address(0)` (the `_burn` path):
checks the balance, removes `v` from `a` and from the total supply. -/
def baseBurn {k : Nat} (s : TokenState k) (a : Fin k) (v : Nat) :
    Option (TokenState k) :=
  if s.bal a < v then none
  else
    some { s with
      bal := Function.update s.bal a (s.bal a - v)
      totalSupplyAmt := s.totalSupplyAmt - v }

/-- One fee-component leg of `ALOToken._update`: the source's
`if (fee > 0) super._update(from, wallet, fee);`. -/
def feeComponentTransfer {k : Nat} (s : TokenState k) (f w : Fin k) (c : Nat) :
    Option (TokenState k) :=
  if 0 < c then baseTransfer s f w c else some s

/-- `ALOToken._update` for a transfer between two non-zero addresses: if both
parties pay fees and the amount is positive, route the 1% / 0.5% / 0.5%
truncated fee components to the three wallets (skipping zero components),
account `totalFees`, and move the remainder; otherwise a plain transfer. -/
def tokenTransfer {k : Nat} (s : TokenState k) (f t : Fin k) (amount : Nat) :
    Option (TokenState k) :=
  if s.isExcludedFromFee f = false ∧ s.isExcludedFromFee t = false ∧ 0 < amount then
    (feeComponentTransfer s f s.buybackWallet (amount * BUYBACK_FEE / FEE_DENOMINATOR)).bind
      fun s1 =>
        (feeComponentTransfer s1 f s.liquidityWallet
            (amount * LIQUIDITY_FEE / FEE_DENOMINATOR)).bind
          fun s2 =>
            (feeComponentTransfer s2 f s.treasuryWallet
                (amount * TREASURY_FEE / FEE_DENOMINATOR)).bind
              fun s3 =>
                baseTransfer
                  { s3 with
                    totalFees := s3.totalFees +
                      (amount * BUYBACK_FEE / FEE_DENOMINATOR +
                        amount * LIQUIDITY_FEE / FEE_DENOMINATOR +
                        amount * TREASURY_FEE / FEE_DENOMINATOR) }
                  f t
                  (amount -
                    (amount * BUYBACK_FEE / FEE_DENOMINATOR +
                      amount * LIQUIDITY_FEE / FEE_DENOMINATOR +
                      amount * TREASURY_FEE / FEE_DENOMINATOR))
  else baseTransfer s f t amount

/-- `ALOToken.burn`: `_burn(msg.sender, amount)` then `totalBurned += amount`. -/
def tokenBurn {k : Nat} (s : TokenState k) (a : Fin k) (amount : Nat) :
    Option (TokenState k) :=
  (baseBurn s a amount).map fun s1 =>
    { s1 with totalBurned := s1.totalBurned + amount }

/-- OpenZeppelin `ERC20._spendAllowance`: an allowance of `type(uint256).max`
is infinite; otherwise the allowance must cover `v` and is decremented. -/
def spendAllowance {k : Nat} (s : TokenState k) (ownerA spender : Fin k) (v : Nat) :
    Option (TokenState k) :=
  if s.allowance ownerA spender = MAXUINT256 then some s
  else if s.allowance ownerA spender < v then none
  else
    some { s with
      allowance := fun o sp =>
        if o = ownerA ∧ sp = spender then s.allowance ownerA spender - v
        else s.allowance o sp }

/-- `ALOToken.burnFrom`: spend the caller's allowance, then burn. -/
def tokenBurnFrom {k : Nat} (s : TokenState k) (caller account : Fin k) (amount : Nat) :
    Option (TokenState k) := do
  let s1 ← spendAllowance s account caller amount
  tokenBurn s1 account amount

/-- `ERC20.approve` (needed so that `burnFrom` traces are exercisable). -/
def tokenApprove {k : Nat} (s : TokenState k) (ownerA spender : Fin k) (v : Nat) :
    TokenState k :=
  { s with
    allowance := fun o sp =>
      if o = ownerA ∧ sp = spender then v else s.allowance o sp }

/-- The token operations the supply-conservation claim ranges over. -/
inductive TokenOp (k : Nat) where
  | transfer (f t : Fin k) (amount : Nat)
  | burn (a : Fin k) (amount : Nat)
  | burnFrom (caller a : Fin k) (amount : Nat)
  | approve (o sp : Fin k) (amount : Nat)

/-- One observable token operation; a reverting call leaves state unchanged. -/
def tokenStep {k : Nat} (s : TokenState k) (op : TokenOp k) : TokenState k :=
  match op with
  | TokenOp.transfer f t v => (tokenTransfer s f t v).getD s
  | TokenOp.burn a v => (tokenBurn s a v).getD s
  | TokenOp.burnFrom c a v => (tokenBurnFrom s c a v).getD s
  | TokenOp.approve o sp v => tokenApprove s o sp v

/-- State after the `ALOToken` constructor: wallets configured, the full
supply minted to the deployer, the deployer and the token contract itself
fee-exempt. -/
def initToken {k : Nat} (owner tokenAddr bb lq tr : Fin k) : TokenState k :=
  { bal := Function.update (fun _ => 0) owner INITIAL_SUPPLY
    allowance := fun _ _ => 0
    totalSupplyAmt := INITIAL_SUPPLY
    totalBurned := 0
    totalFees := 0
    isExcludedFromFee := fun a => a = owner ∨ a = tokenAddr
    buybackWallet := bb
    liquidityWallet := lq
    treasuryWallet := tr }

/-- Run a sequence of token operations. -/
def runToken {k : Nat} (s : TokenState k) (ops : List (TokenOp k)) : TokenState k :=
  ops.foldl tokenStep s

/-- Sum of every account balance. -/
def sumBal {k : Nat} (s : TokenState k) : Nat :=
  Finset.univ.sum s.bal

/-! ## ALOGovernance: proposal lifecycle -/

/-- `enum ProposalState`, in the source declaration order. -/
inductive PState where
  | Pending
  | Active
  | Succeeded
  | Defeated
  | Queued
  | Executed
  | Canceled
deriving DecidableEq

/-- `enum VoteType { Against, For, Abstain }`. -/
inductive VoteType where
  | Against
  | For
  | Abstain
deriving DecidableEq

/-- `struct Receipt { bool hasVoted; VoteType support; uint256 votes; }`. -/
structure Receipt where
  hasVoted : Bool
  support : VoteType
  votes : Nat
deriving DecidableEq

/-- The all-zero `Receipt`, the default value of the nested `receipts`
mapping (enum zero value is `Against`). -/
def defaultReceipt : Receipt :=
  { hasVoted := false, support := VoteType.Against, votes := 0 }

/-- `struct Proposal` (the `id` field is the 1-based list position and is
kept implicit). -/
structure Proposal where
  proposer : Nat
  title : String
  description : String
  startBlock : Nat
  endBlock : Nat
  forVotes : Nat
  againstVotes : Nat
  abstainVotes : Nat
  quorum : Nat
  executed : Bool
  canceled : Bool
  receipts : Nat → Receipt

/-- `ALOGovernance.state` as a function of one proposal's stored fields and
the current block height: the source's if-else precedence chain. -/
def proposalState (p : Proposal) (blockNumber : Nat) : PState :=
  if p.canceled then PState.Canceled
  else if p.executed then PState.Executed
  else if blockNumber ≤ p.startBlock then PState.Pending
  else if blockNumber ≤ p.endBlock then PState.Active
  else if p.forVotes ≤ p.againstVotes ∨ p.forVotes < p.quorum then PState.Defeated
  else PState.Succeeded

/-- Storage of `ALOGovernance`, plus the environment it reads: the current
block height, and the token's `balanceOf` (voting power) and `totalSupply`.
Proposal `i + 1` is `proposals[i]`; `proposalCount` is the list length. -/
structure GovState where
  owner : Nat
  blockNumber : Nat
  power : Nat → Nat
  totalSupply : Nat
  stakingContract : Nat
  votingDelay : Nat
  votingPeriod : Nat
  proposalThreshold : Nat
  quorumPercentage : Nat
  proposals : List Proposal

/-- Look up proposal `pid` (1-based, as in the source's
`require(proposalId > 0 && proposalId <= proposalCount)`). -/
def getProposal (g : GovState) (pid : Nat) : Option Proposal :=
  if 1 ≤ pid then g.proposals[pid - 1]? else none

/-- The source's revert reasons for the governance operations. -/
inductive GovErr where
  | invalidProposal
  | votingClosed
  | alreadyVoted
  | noVotingPower
  | belowProposalThreshold
  | proposalNotSucceeded
  | notAuthorized
  | cannotCancelExecuted
  | invalidQuorumPercentage
deriving DecidableEq

/-- The governance-visible operations.  `advanceBlocks` models the chain
producing blocks; `setBalances` models arbitrary token activity changing
balances (= voting power) and total supply between governance calls. -/
inductive GovOp where
  | advanceBlocks (n : Nat)
  | setBalances (power : Nat → Nat) (totalSupply : Nat)
  | propose (sender : Nat) (title description : String)
  | castVote (sender : Nat) (pid : Nat) (support : VoteType)
  | execute (sender : Nat) (pid : Nat)
  | cancel (sender : Nat) (pid : Nat)
  | setVotingParameters (sender d p th q : Nat)
  | setStakingContract (sender a : Nat)

/-- One governance call (or environment step), returning the revert reason
when the source would revert.  Each case follows the corresponding source
function line by line. -/
def govApply (g : GovState) (op : GovOp) : Except GovErr GovState :=
  match op with
  | GovOp.advanceBlocks n => Except.ok { g with blockNumber := g.blockNumber + n }
  | GovOp.setBalances f ts => Except.ok { g with power := f, totalSupply := ts }
  | GovOp.propose sender title description =>
      if g.power sender < g.proposalThreshold then
        Except.error GovErr.belowProposalThreshold
      else
        Except.ok
          { g with
            proposals := g.proposals ++
              [{ proposer := sender
                 title := title
                 description := description
                 startBlock := g.blockNumber + g.votingDelay
                 endBlock := g.blockNumber + g.votingDelay + g.votingPeriod
                 forVotes := 0
                 againstVotes := 0
                 abstainVotes := 0
                 quorum := g.totalSupply * g.quorumPercentage / 100
                 executed := false
                 canceled := false
                 receipts := fun _ => defaultReceipt }] }
  | GovOp.castVote sender pid support =>
      match getProposal g pid with
      | none => Except.error GovErr.invalidProposal
      | some p =>
        if proposalState p g.blockNumber ≠ PState.Active then
          Except.error GovErr.votingClosed
        else if (p.receipts sender).hasVoted then Except.error GovErr.alreadyVoted
        else if g.power sender = 0 then Except.error GovErr.noVotingPower
        else
          let votes := g.power sender
          let pTallied :=
            match support with
            | VoteType.For => { p with forVotes := p.forVotes + votes }
            | VoteType.Against => { p with againstVotes := p.againstVotes + votes }
            | VoteType.Abstain => { p with abstainVotes := p.abstainVotes + votes }
          let pVoted :=
            { pTallied with
              receipts := Function.update pTallied.receipts sender
                { hasVoted := true, support := support, votes := votes } }
          Except.ok { g with proposals := g.proposals.set (pid - 1) pVoted }
  | GovOp.execute _sender pid =>
      match getProposal g pid with
      | none => Except.error GovErr.invalidProposal
      | some p =>
        if proposalState p g.blockNumber ≠ PState.Succeeded then
          Except.error GovErr.proposalNotSucceeded
        else
          Except.ok
            { g with proposals := g.proposals.set (pid - 1) { p with executed := true } }
  | GovOp.cancel sender pid =>
      match getProposal g pid with
      | none => Except.error GovErr.invalidProposal
      | some p =>
        if sender ≠ p.proposer ∧ sender ≠ g.owner then
          Except.error GovErr.notAuthorized
        else if proposalState p g.blockNumber = PState.Executed then
          Except.error GovErr.cannotCancelExecuted
        else
          Except.ok
            { g with proposals := g.proposals.set (pid - 1) { p with canceled := true } }
  | GovOp.setVotingParameters sender d p th q =>
      if sender ≠ g.owner then Except.error GovErr.notAuthorized
      else if 100 < q then Except.error GovErr.invalidQuorumPercentage
      else
        Except.ok
          { g with
            votingDelay := d, votingPeriod := p
            proposalThreshold := th, quorumPercentage := q }
  | GovOp.setStakingContract sender a =>
      if sender ≠ g.owner then Except.error GovErr.notAuthorized
      else Except.ok { g with stakingContract := a }

/-- Observable effect of a governance call: a revert leaves state unchanged. -/
def govStep (g : GovState) (op : GovOp) : GovState :=
  match govApply g op with
  | Except.ok g1 => g1
  | Except.error _ => g

/-- Rank of a proposal state along the forward lifecycle chain
`Pending → Active → {Succeeded, Defeated} → Executed` (`Queued` and
`Canceled` are given out-of-chain ranks; `Canceled` is handled separately
by `forwardStep`). -/
def stateRank : PState → Nat
  | PState.Pending => 0
  | PState.Active => 1
  | PState.Succeeded => 2
  | PState.Defeated => 2
  | PState.Queued => 9
  | PState.Executed => 3
  | PState.Canceled => 9

/-- The forward-transition relation the specification allows: stay put, move
to `Canceled` from any non-`Executed` state, or move strictly forward along
the chain — with `Executed` reachable only on the `Succeeded` branch. -/
def forwardStep (s1 s2 : PState) : Prop :=
  s1 = s2 ∨ (s2 = PState.Canceled ∧ s1 ≠ PState.Executed) ∨
    (s1 ≠ PState.Canceled ∧ s2 ≠ PState.Canceled ∧ stateRank s1 < stateRank s2 ∧
      (s2 = PState.Executed → s1 ≠ PState.Defeated))

instance (s1 s2 : PState) : Decidable (forwardStep s1 s2) := by
  unfold forwardStep
  infer_instance

/-- The proposal of the specification's defeat-by-quorum scenario: quorum
computed as 10% of a 100,000,000-unit supply, a single For vote of
5,000,000, no Against votes, voting window `(10, 20]`. -/
def quorumScenarioProposal : Proposal :=
  { proposer := 1
    title := ""
    description := ""
    startBlock := 10
    endBlock := 20
    forVotes := 5000000
    againstVotes := 0
    abstainVotes := 0
    quorum := 100000000 * 10 / 100
    executed := false
    canceled := false
    receipts := fun _ => defaultReceipt }

/-! ## Concrete states used to instantiate the theorems -/

/-- A staking state with one PLATINUM staker of 1000 whole tokens (the
specification's reward scenario), at reward rate 7. -/
def rewardsScenarioState : StakingState :=
  { rewardRate := 7
    totalStaked := 1000 * 10 ^ 18
    tierConfigs := initialTierConfigs
    stakes := fun a =>
      if a = 0 then
        { amount := 1000 * 10 ^ 18, startTime := 0, lastClaimTime := 0
          tier := Tier.PLATINUM, rewardDebt := 0 }
      else zeroStakeInfo
    tierStakers := fun t => if t = Tier.PLATINUM then 1 else 0
    tierTotalStaked := fun t => if t = Tier.PLATINUM then 1000 * 10 ^ 18 else 0
    bal := fun _ => 0
    contractBal := 10 ^ 24 }

/-- A staking state whose single staker has 1 wei staked at rate 1: after one
elapsed second the truncated pending reward is `1 * 1 * 1 / 10^18 = 0`. -/
def zeroRewardClaimState : StakingState :=
  { rewardRate := 1
    totalStaked := 1
    tierConfigs := initialTierConfigs
    stakes := fun a =>
      if a = 0 then
        { amount := 1, startTime := 0, lastClaimTime := 0
          tier := Tier.FREE, rewardDebt := 0 }
      else zeroStakeInfo
    tierStakers := fun t => if t = Tier.FREE then 1 else 0
    tierTotalStaked := fun t => if t = Tier.FREE then 1 else 0
    bal := fun _ => 0
    contractBal := 5 }

/-- A staking state with one staker of `10^18` wei at rate 1 and a pool
holding exactly `totalStaked + 1`: claiming after one second pays reward 1. -/
def payRewardClaimState : StakingState :=
  { rewardRate := 1
    totalStaked := 10 ^ 18
    tierConfigs := initialTierConfigs
    stakes := fun a =>
      if a = 0 then
        { amount := 10 ^ 18, startTime := 0, lastClaimTime := 0
          tier := Tier.FREE, rewardDebt := 0 }
      else zeroStakeInfo
    tierStakers := fun t => if t = Tier.FREE then 1 else 0
    tierTotalStaked := fun t => if t = Tier.FREE then 10 ^ 18 else 0
    bal := fun _ => 0
    contractBal := 10 ^ 18 + 1 }

/-- A five-account token state: account 0 holds 1000 units, nobody is
fee-exempt, and accounts 2, 3, 4 are the buyback/liquidity/treasury wallets. -/
def feeScenarioState : TokenState 5 :=
  { bal := fun a => if a = 0 then 1000 else 0
    allowance := fun _ _ => 0
    totalSupplyAmt := 1000
    totalBurned := 0
    totalFees := 0
    isExcludedFromFee := fun _ => false
    buybackWallet := 2
    liquidityWallet := 3
    treasuryWallet := 4 }

/-- A proposal in its voting window `(10, 20]` on which address 0 has
already recorded a For vote of weight 5. -/
def votedProposal : Proposal :=
  { proposer := 1
    title := ""
    description := ""
    startBlock := 10
    endBlock := 20
    forVotes := 5
    againstVotes := 0
    abstainVotes := 0
    quorum := 10
    executed := false
    canceled := false
    receipts := fun a =>
      if a = 0 then { hasVoted := true, support := VoteType.For, votes := 5 }
      else defaultReceipt }

/-- A governance state at block 15 holding `votedProposal` as proposal 1. -/
def votedGovState : GovState :=
  { owner := 9
    blockNumber := 15
    power := fun _ => 5
    totalSupply := 100
    stakingContract := 2
    votingDelay := 1
    votingPeriod := 10
    proposalThreshold := 1
    quorumPercentage := 10
    proposals := [votedProposal] }

/-! ## Theorems -/

/-- C10: although `ProposalState` declares a `Queued` member, the `state`
function never returns `Queued`, for any proposal contents and any block
height. -/
theorem state_never_queued (p : Proposal) (b : Nat) :
    proposalState p b ≠ PState.Queued := by
  unfold proposalState
  split_ifs <;> simp

/-- C2: `state` returns exactly the first matching case of the precedence
order Canceled > Executed > Pending > Active > Defeated > Succeeded, with
the source's exact conditions; and in the quorum scenario (10% of a
100,000,000-unit supply, 5,000,000 For votes, 0 Against, window closed) the
result is Defeated even though For votes exceed Against votes. -/
theorem state_precedence_order :
    (∀ (p : Proposal) (b : Nat),
      (p.canceled = true → proposalState p b = PState.Canceled) ∧
      (p.canceled = false → p.executed = true → proposalState p b = PState.Executed) ∧
      (p.canceled = false → p.executed = false → b ≤ p.startBlock →
        proposalState p b = PState.Pending) ∧
      (p.canceled = false → p.executed = false → p.startBlock < b → b ≤ p.endBlock →
        proposalState p b = PState.Active) ∧
      (p.canceled = false → p.executed = false → p.startBlock < b → p.endBlock < b →
        (p.forVotes ≤ p.againstVotes ∨ p.forVotes < p.quorum) →
        proposalState p b = PState.Defeated) ∧
      (p.canceled = false → p.executed = false → p.startBlock < b → p.endBlock < b →
        p.againstVotes < p.forVotes → p.quorum ≤ p.forVotes →
        proposalState p b = PState.Succeeded)) ∧
    quorumScenarioProposal.quorum = 10000000 ∧
    quorumScenarioProposal.againstVotes < quorumScenarioProposal.forVotes ∧
    quorumScenarioProposal.forVotes < quorumScenarioProposal.quorum ∧
    proposalState quorumScenarioProposal 21 = PState.Defeated := by
  refine ⟨fun p b => ⟨?_, ?_, ?_, ?_, ?_, ?_⟩, by decide, by decide, by decide, by decide⟩
  · intro hc
    simp [proposalState, hc]
  · intro hc he
    simp [proposalState, hc, he]
  · intro hc he hb
    simp [proposalState, hc, he, hb]
  · intro hc he h1 h2
    simp [proposalState, hc, he, h2, Nat.not_le.mpr h1]
  · intro hc he h1 h2 hd
    simp [proposalState, hc, he, Nat.not_le.mpr h1, Nat.not_le.mpr h2, hd]
  · intro hc he h1 h2 ha hq
    simp [proposalState, hc, he, Nat.not_le.mpr h1, Nat.not_le.mpr h2,
      Nat.not_le.mpr ha, Nat.not_lt.mpr hq]

/-- Witness for C2: the precedence theorem applied to the quorum scenario at
block 21 yields Defeated. -/
theorem state_precedence_order_witness :
    proposalState quorumScenarioProposal 21 = PState.Defeated :=
  (state_precedence_order.1 quorumScenarioProposal 21).2.2.2.2.1 rfl rfl
    (by decide) (by decide) (Or.inr (by decide))

/-- C6: tier assignment equals the highest-first first-match scan for every
tier table, and on the default thresholds 100 whole units yield BRONZE,
499 BRONZE, 500 SILVER, 1500 DIAMOND, and 0 FREE. -/
theorem tier_assignment_first_match :
    (∀ (cfg : Tier → TierConfig) (amount : Nat),
      getTierForAmount cfg amount = specFirstMatchTier cfg amount) ∧
    getTierForAmount initialTierConfigs (100 * 10 ^ 18) = Tier.BRONZE ∧
    getTierForAmount initialTierConfigs (499 * 10 ^ 18) = Tier.BRONZE ∧
    getTierForAmount initialTierConfigs (500 * 10 ^ 18) = Tier.SILVER ∧
    getTierForAmount initialTierConfigs (1500 * 10 ^ 18) = Tier.DIAMOND ∧
    getTierForAmount initialTierConfigs 0 = Tier.FREE := by
  refine ⟨fun cfg amount => ?_, by decide, by decide, by decide, by decide, by decide⟩
  unfold getTierForAmount specFirstMatchTier tierScanOrder
  by_cases h1 : (cfg Tier.DIAMOND).requiredAmount ≤ amount <;>
    by_cases h2 : (cfg Tier.PLATINUM).requiredAmount ≤ amount <;>
      by_cases h3 : (cfg Tier.SILVER).requiredAmount ≤ amount <;>
        by_cases h4 : (cfg Tier.BRONZE).requiredAmount ≤ amount <;>
          simp [List.find?, h1, h2, h3, h4]

/-- C1 (the code violates the claim): after user 0 stakes 50 wei and then
100 * 10^18 more (moving from FREE to BRONZE), the sum over tiers of
`tierTotalStaked` is 100 * 10^18 while `totalStaked` is 100 * 10^18 + 50:
the tier-change branch of `stake` removes the old amount from the old tier
but adds only the newly staked delta to the new tier. -/
theorem tier_totals_bug_eval :
    (tierBugTrace.toOption.map fun s => (sumTierTotal s, s.totalStaked)) =
      some (100 * 10 ^ 18, 100 * 10 ^ 18 + 50) ∧
    (100 * 10 ^ 18 : Nat) ≠ 100 * 10 ^ 18 + 50 := by
  constructor
  · decide
  · decide

/-- C3: for any active stake, `calculateRewards` is the source's two-stage
truncating computation, never exceeds the untruncated product (never rounds
up), and in the specification's scenario — 1000 whole tokens at PLATINUM
(multiplier 12500 over base 10000) with 86,400 elapsed seconds — equals
`floor(1000 * R * 86400 * 12500 / 10000)` for every reward rate `R`. -/
theorem calculate_rewards_truncation (s : StakingState) (u now : Nat) :
    ((s.stakes u).amount ≠ 0 →
      calculateRewards s u now =
        (s.stakes u).amount * s.rewardRate * (now - (s.stakes u).lastClaimTime) / 10 ^ 18 *
          (s.tierConfigs (s.stakes u).tier).multiplier / 10000 ∧
      calculateRewards s u now * (10 ^ 18 * 10000) ≤
        (s.stakes u).amount * s.rewardRate * (now - (s.stakes u).lastClaimTime) *
          (s.tierConfigs (s.stakes u).tier).multiplier) ∧
    ((s.stakes u).amount = 1000 * 10 ^ 18 → (s.stakes u).tier = Tier.PLATINUM →
      s.tierConfigs = initialTierConfigs → now - (s.stakes u).lastClaimTime = 86400 →
      calculateRewards s u now = 1000 * s.rewardRate * 86400 * 12500 / 10000) := by
  constructor
  · intro h
    unfold calculateRewards
    simp only [h, if_false]
    refine ⟨by trivial, ?_⟩
    calc
      (s.stakes u).amount * s.rewardRate * (now - (s.stakes u).lastClaimTime) / 10 ^ 18 *
            (s.tierConfigs (s.stakes u).tier).multiplier / 10000 * (10 ^ 18 * 10000) =
          (s.stakes u).amount * s.rewardRate * (now - (s.stakes u).lastClaimTime) / 10 ^ 18 *
            (s.tierConfigs (s.stakes u).tier).multiplier / 10000 * 10000 * 10 ^ 18 := by ring
      _ ≤ (s.stakes u).amount * s.rewardRate * (now - (s.stakes u).lastClaimTime) / 10 ^ 18 *
            (s.tierConfigs (s.stakes u).tier).multiplier * 10 ^ 18 :=
        Nat.mul_le_mul_right _ (Nat.div_mul_le_self _ _)
      _ = (s.stakes u).amount * s.rewardRate * (now - (s.stakes u).lastClaimTime) / 10 ^ 18 *
            10 ^ 18 * (s.tierConfigs (s.stakes u).tier).multiplier := by ring
      _ ≤ (s.stakes u).amount * s.rewardRate * (now - (s.stakes u).lastClaimTime) *
            (s.tierConfigs (s.stakes u).tier).multiplier :=
        Nat.mul_le_mul_right _ (Nat.div_mul_le_self _ _)
  · intro h1 h2 h3 h4
    unfold calculateRewards
    simp only [h1, h2, h3, h4]
    have hne : (1000 : Nat) * 10 ^ 18 ≠ 0 := by decide
    simp only [hne, if_false]
    have hmul : (1000 : Nat) * 10 ^ 18 * s.rewardRate * 86400 =
        1000 * s.rewardRate * 86400 * 10 ^ 18 := by ring
    rw [hmul, Nat.mul_div_cancel _ (by norm_num : (0 : Nat) < 10 ^ 18)]
    rfl

/-- Witness for C3: the reward scenario state (1000 whole tokens, PLATINUM,
rate 7) evaluated after 86,400 seconds. -/
theorem calculate_rewards_truncation_witness :
    calculateRewards rewardsScenarioState 0 86400 = 1000 * 7 * 86400 * 12500 / 10000 := by
  have h := (calculate_rewards_truncation rewardsScenarioState 0 86400).2
    (by decide) (by decide) rfl (by decide)
  simpa using h

/-- C7 counterexample: with 1 wei staked at rate 1 and one elapsed second the
pending reward truncates to 0, so `claimRewards` succeeds without paying and
without resetting `lastClaimTime` to the current time — the claim's
unconditional "resets lastClaimTime on success" is false. -/
theorem claim_rewards_no_reset_counterexample :
    claimRewards zeroRewardClaimState 0 7 = Except.ok zeroRewardClaimState ∧
    calculateRewards zeroRewardClaimState 0 7 = 0 ∧
    (zeroRewardClaimState.stakes 0).lastClaimTime = 0 ∧ (0 : Nat) ≠ 7 := by
  refine ⟨rfl, by decide, by decide, by decide⟩

/-- C7 (amended): `claimRewards` fails with `NoActiveStake` on a zero stake;
with an active stake it computes the pending reward since `lastClaimTime`;
when that reward is zero it succeeds changing nothing; when it is positive
but the pool balance cannot cover `totalStaked + reward` the whole operation
fails with no partial payment; and when the pool suffices it pays exactly
the reward and resets the caller's `lastClaimTime` to the current time. -/
theorem claim_rewards_spec (s : StakingState) (u now : Nat) :
    ((s.stakes u).amount = 0 →
      claimRewards s u now = Except.error StakeErr.noActiveStake) ∧
    ((s.stakes u).amount ≠ 0 → calculateRewards s u now = 0 →
      claimRewards s u now = Except.ok s) ∧
    ((s.stakes u).amount ≠ 0 → 0 < calculateRewards s u now →
      s.contractBal < s.totalStaked + calculateRewards s u now →
      claimRewards s u now = Except.error StakeErr.insufficientRewards) ∧
    ((s.stakes u).amount ≠ 0 → 0 < calculateRewards s u now →
      s.totalStaked + calculateRewards s u now ≤ s.contractBal →
      claimRewards s u now = Except.ok
        { s with
          stakes := Function.update s.stakes u
            { s.stakes u with
              lastClaimTime := now
              rewardDebt := (s.stakes u).rewardDebt + calculateRewards s u now }
          contractBal := s.contractBal - calculateRewards s u now
          bal := Function.update s.bal u (s.bal u + calculateRewards s u now) }) := by
  refine ⟨?_, ?_, ?_, ?_⟩
  · intro h
    simp [claimRewards, claimRewardsAux, h]
  · intro h hr
    simp [claimRewards, claimRewardsAux, h, hr]
  · intro h hr hpool
    simp [claimRewards, claimRewardsAux, h, hr, hpool]
  · intro h hr hpool
    simp [claimRewards, claimRewardsAux, h, hr, Nat.not_lt.mpr hpool]

/-- Witness for C7's amended theorem: one staker of `10^18` wei at rate 1
claiming after one second receives reward 1 from a pool of `totalStaked + 1`
and has `lastClaimTime` reset to 1. -/
theorem claim_rewards_spec_witness :
    claimRewards payRewardClaimState 0 1 = Except.ok
      { payRewardClaimState with
        stakes := Function.update payRewardClaimState.stakes 0
          { payRewardClaimState.stakes 0 with
            lastClaimTime := 1
            rewardDebt := (payRewardClaimState.stakes 0).rewardDebt +
              calculateRewards payRewardClaimState 0 1 }
        contractBal := payRewardClaimState.contractBal -
          calculateRewards payRewardClaimState 0 1
        bal := Function.update payRewardClaimState.bal 0
          (payRewardClaimState.bal 0 + calculateRewards payRewardClaimState 0 1) } :=
  (claim_rewards_spec payRewardClaimState 0 1).2.2.2 (by decide) (by decide) (by decide)

/-- Updating one account changes a full balance sum by the difference. -/
theorem sum_update_balance {k : Nat} (g : Fin k → Nat) (a : Fin k) (x : Nat) :
    Finset.univ.sum (Function.update g a x) + g a = Finset.univ.sum g + x := by
  rw [Finset.sum_update_of_mem (Finset.mem_univ a), Finset.sdiff_singleton_eq_erase,
    ← Finset.add_sum_erase Finset.univ g (Finset.mem_univ a)]
  omega

/-- A single balance is at most the full balance sum. -/
theorem single_balance_le_sum {k : Nat} (g : Fin k → Nat) (a : Fin k) :
    g a ≤ Finset.univ.sum g :=
  Finset.single_le_sum (fun i _ => Nat.zero_le (g i)) (Finset.mem_univ a)

/-- A successful plain transfer preserves the balance sum and every
non-balance field. -/
theorem baseTransfer_conserve {k : Nat} {s s1 : TokenState k} {f t : Fin k} {v : Nat}
    (h : baseTransfer s f t v = some s1) :
    sumBal s1 = sumBal s ∧ s1.totalBurned = s.totalBurned := by
  unfold baseTransfer at h
  split_ifs at h with hlt
  injection h with h
  subst h
  refine ⟨?_, rfl⟩
  show Finset.univ.sum (Function.update (Function.update s.bal f (s.bal f - v)) t
    (Function.update s.bal f (s.bal f - v) t + v)) = Finset.univ.sum s.bal
  have h1 := sum_update_balance (Function.update s.bal f (s.bal f - v)) t
    (Function.update s.bal f (s.bal f - v) t + v)
  have h2 := sum_update_balance s.bal f (s.bal f - v)
  have h3 := single_balance_le_sum s.bal f
  omega

/-- A successful burn removes exactly `v` from the balance sum. -/
theorem baseBurn_conserve {k : Nat} {s s1 : TokenState k} {a : Fin k} {v : Nat}
    (h : baseBurn s a v = some s1) :
    sumBal s1 + v = sumBal s ∧ v ≤ sumBal s ∧ s1.totalBurned = s.totalBurned := by
  unfold baseBurn at h
  split_ifs at h with hlt
  injection h with h
  subst h
  have h2 := sum_update_balance s.bal a (s.bal a - v)
  have h3 := single_balance_le_sum s.bal a
  refine ⟨?_, ?_, rfl⟩
  · show Finset.univ.sum (Function.update s.bal a (s.bal a - v)) + v = Finset.univ.sum s.bal
    omega
  · show v ≤ Finset.univ.sum s.bal
    omega

/-- One optional fee-component transfer preserves the balance sum. -/
theorem feeComponent_conserve {k : Nat} {s a : TokenState k} {f w : Fin k} {c : Nat}
    (h : feeComponentTransfer s f w c = some a) :
    sumBal a = sumBal s ∧ a.totalBurned = s.totalBurned := by
  unfold feeComponentTransfer at h
  split_ifs at h with h0
  · exact baseTransfer_conserve h
  · injection h with h
    subst h
    exact ⟨rfl, rfl⟩

/-- A fee-splitting transfer preserves the balance sum plus the burn
counter. -/
theorem tokenTransfer_conserve {k : Nat} {s s1 : TokenState k} {f t : Fin k} {v : Nat}
    (h : tokenTransfer s f t v = some s1) :
    sumBal s1 + s1.totalBurned = sumBal s + s.totalBurned := by
  unfold tokenTransfer at h
  by_cases hfee : s.isExcludedFromFee f = false ∧ s.isExcludedFromFee t = false ∧ 0 < v
  · rw [if_pos hfee] at h
    obtain ⟨a, hA, h⟩ := Option.bind_eq_some.mp h
    obtain ⟨b, hB, h⟩ := Option.bind_eq_some.mp h
    obtain ⟨c, hC, h⟩ := Option.bind_eq_some.mp h
    have h1 := feeComponent_conserve hA
    have h2 := feeComponent_conserve hB
    have h3 := feeComponent_conserve hC
    have h4 := baseTransfer_conserve h
    have h5 : sumBal { c with
        totalFees := c.totalFees + (v * BUYBACK_FEE / FEE_DENOMINATOR +
          v * LIQUIDITY_FEE / FEE_DENOMINATOR + v * TREASURY_FEE / FEE_DENOMINATOR) } =
        sumBal c := rfl
    have h6 : ({ c with
        totalFees := c.totalFees + (v * BUYBACK_FEE / FEE_DENOMINATOR +
          v * LIQUIDITY_FEE / FEE_DENOMINATOR + v * TREASURY_FEE / FEE_DENOMINATOR) } :
        TokenState k).totalBurned = c.totalBurned := rfl
    omega
  · rw [if_neg hfee] at h
    have h4 := baseTransfer_conserve h
    omega

/-- A successful burn moves the removed amount into `totalBurned`, keeping
the sum of balances plus the burn counter constant. -/
theorem tokenBurn_conserve {k : Nat} {s s1 : TokenState k} {a : Fin k} {v : Nat}
    (h : tokenBurn s a v = some s1) :
    sumBal s1 + s1.totalBurned = sumBal s + s.totalBurned := by
  unfold tokenBurn at h
  cases hb : baseBurn s a v with
  | none => rw [hb] at h; exact absurd h (by simp)
  | some b =>
    rw [hb] at h
    have h1 := baseBurn_conserve hb
    injection h with h
    subst h
    beta_reduce
    have h2 : sumBal { b with totalBurned := b.totalBurned + v } = sumBal b := rfl
    have h3 : ({ b with totalBurned := b.totalBurned + v } : TokenState k).totalBurned =
        b.totalBurned + v := rfl
    omega

/-- `_spendAllowance` never touches balances or the burn counter. -/
theorem spendAllowance_preserve {k : Nat} {s s1 : TokenState k} {o sp : Fin k} {v : Nat}
    (h : spendAllowance s o sp v = some s1) :
    sumBal s1 = sumBal s ∧ s1.totalBurned = s.totalBurned := by
  unfold spendAllowance at h
  split_ifs at h with h0 h1 <;> injection h with h <;> subst h <;> exact ⟨rfl, rfl⟩

/-- `burnFrom` conserves the sum of balances plus the burn counter. -/
theorem tokenBurnFrom_conserve {k : Nat} {s s1 : TokenState k} {c a : Fin k} {v : Nat}
    (h : tokenBurnFrom s c a v = some s1) :
    sumBal s1 + s1.totalBurned = sumBal s + s.totalBurned := by
  unfold tokenBurnFrom at h
  obtain ⟨b, hb, h⟩ := Option.bind_eq_some.mp h
  have h1 := spendAllowance_preserve hb
  have h2 := tokenBurn_conserve h
  omega

/-- Every token operation conserves the sum of balances plus `totalBurned`. -/
theorem tokenStep_conserve {k : Nat} (s : TokenState k) (op : TokenOp k) :
    sumBal (tokenStep s op) + (tokenStep s op).totalBurned =
      sumBal s + s.totalBurned := by
  cases op with
  | transfer f t v =>
    show sumBal ((tokenTransfer s f t v).getD s) +
      ((tokenTransfer s f t v).getD s).totalBurned = sumBal s + s.totalBurned
    cases h : tokenTransfer s f t v with
    | none => rfl
    | some s1 => exact tokenTransfer_conserve h
  | burn a v =>
    show sumBal ((tokenBurn s a v).getD s) +
      ((tokenBurn s a v).getD s).totalBurned = sumBal s + s.totalBurned
    cases h : tokenBurn s a v with
    | none => rfl
    | some s1 => exact tokenBurn_conserve h
  | burnFrom c a v =>
    show sumBal ((tokenBurnFrom s c a v).getD s) +
      ((tokenBurnFrom s c a v).getD s).totalBurned = sumBal s + s.totalBurned
    cases h : tokenBurnFrom s c a v with
    | none => rfl
    | some s1 => exact tokenBurnFrom_conserve h
  | approve o sp v => rfl

/-- The constructor state carries the whole initial supply in balances and
nothing burned. -/
theorem initToken_sum {k : Nat} (owner tokenAddr bb lq tr : Fin k) :
    sumBal (initToken owner tokenAddr bb lq tr) = INITIAL_SUPPLY ∧
    (initToken owner tokenAddr bb lq tr).totalBurned = 0 := by
  refine ⟨?_, rfl⟩
  show Finset.univ.sum (Function.update (fun _ => 0) owner INITIAL_SUPPLY) = INITIAL_SUPPLY
  have h1 := sum_update_balance (fun _ : Fin k => 0) owner INITIAL_SUPPLY
  have h2 : Finset.univ.sum (fun _ : Fin k => 0) = 0 := Finset.sum_const_zero
  omega

/-- C4: along every sequence of transfers, burns, burnFroms and approvals
from the genesis mint, the sum of all account balances plus the running
`totalBurned` counter equals the initially minted supply of
100,000,000 * 10^18 base units. -/
theorem token_supply_conservation (k : Nat) (owner tokenAddr bb lq tr : Fin k)
    (ops : List (TokenOp k)) :
    sumBal (runToken (initToken owner tokenAddr bb lq tr) ops) +
      (runToken (initToken owner tokenAddr bb lq tr) ops).totalBurned =
      INITIAL_SUPPLY := by
  have hinit := initToken_sum owner tokenAddr bb lq tr
  have hgen : ∀ (l : List (TokenOp k)) (s : TokenState k),
      sumBal (runToken s l) + (runToken s l).totalBurned = sumBal s + s.totalBurned := by
    intro l
    induction l with
    | nil => intro s; rfl
    | cons op rest ih =>
      intro s
      have h1 := tokenStep_conserve s op
      have h2 := ih (tokenStep s op)
      calc
        sumBal (runToken s (op :: rest)) + (runToken s (op :: rest)).totalBurned =
            sumBal (runToken (tokenStep s op) rest) +
              (runToken (tokenStep s op) rest).totalBurned := rfl
        _ = sumBal (tokenStep s op) + (tokenStep s op).totalBurned := h2
        _ = sumBal s + s.totalBurned := h1
  have h := hgen ops (initToken owner tokenAddr bb lq tr)
  omega

/-- Explicit evaluation of one fee-component leg when the payer differs from
the wallet and can cover the component. -/
theorem feeComponentTransfer_eq {k : Nat} (s : TokenState k) (f w : Fin k) (c : Nat)
    (hw : f ≠ w) (hc : c ≤ s.bal f) :
    feeComponentTransfer s f w c = some
      { s with bal := fun x =>
          if x = f then s.bal f - c else if x = w then s.bal w + c else s.bal x } := by
  unfold feeComponentTransfer baseTransfer
  by_cases h0 : 0 < c
  · rw [if_pos h0, if_neg (Nat.not_lt.mpr hc)]
    have hfn : Function.update (Function.update s.bal f (s.bal f - c)) w
        (Function.update s.bal f (s.bal f - c) w + c) =
        fun x => if x = f then s.bal f - c else if x = w then s.bal w + c
          else s.bal x := by
      funext x
      by_cases h1 : x = f
      · subst h1
        simp [Function.update_apply, hw, Ne.symm hw]
      · by_cases h2 : x = w
        · subst h2
          simp [Function.update_apply, Ne.symm hw, h1]
        · simp [Function.update_apply, h1, h2]
    rw [hfn]
  · have hc0 : c = 0 := by omega
    subst hc0
    rw [if_neg h0]
    have hfn : (fun x => if x = f then s.bal f - 0 else if x = w then s.bal w + 0
        else s.bal x) = s.bal := by
      funext x
      split_ifs with h1 h2
      · subst h1; omega
      · subst h2; omega
      · rfl
    rw [hfn]

/-- Explicit evaluation of a plain transfer between distinct parties with
sufficient balance. -/
theorem baseTransfer_eq {k : Nat} (s : TokenState k) (f t : Fin k) (v : Nat)
    (hft : f ≠ t) (hv : v ≤ s.bal f) :
    baseTransfer s f t v = some
      { s with bal := fun x =>
          if x = f then s.bal f - v else if x = t then s.bal t + v else s.bal x } := by
  unfold baseTransfer
  rw [if_neg (Nat.not_lt.mpr hv)]
  have hfn : Function.update (Function.update s.bal f (s.bal f - v)) t
      (Function.update s.bal f (s.bal f - v) t + v) =
      fun x => if x = f then s.bal f - v else if x = t then s.bal t + v
        else s.bal x := by
    funext x
    by_cases h1 : x = f
    · subst h1
      simp [Function.update_apply, hft, Ne.symm hft]
    · by_cases h2 : x = t
      · subst h2
        simp [Function.update_apply, Ne.symm hft, h1]
      · simp [Function.update_apply, h1, h2]
  rw [hfn]

/-- Forward form of `feeComponentTransfer_eq`: the leg succeeds and its
effect on each balance is known. -/
theorem feeComponentTransfer_some {k : Nat} (s : TokenState k) (f w : Fin k) (c : Nat)
    (hw : f ≠ w) (hc : c ≤ s.bal f) :
    ∃ s1, feeComponentTransfer s f w c = some s1 ∧
      s1.bal f = s.bal f - c ∧ s1.bal w = s.bal w + c ∧
      (∀ x, x ≠ f → x ≠ w → s1.bal x = s.bal x) := by
  refine ⟨_, feeComponentTransfer_eq s f w c hw hc, ?_, ?_, ?_⟩
  · simp
  · simp [Ne.symm hw]
  · intro x h1 h2
    simp [h1, h2]

/-- Forward form of `baseTransfer_eq`. -/
theorem baseTransfer_some {k : Nat} (s : TokenState k) (f t : Fin k) (v : Nat)
    (hft : f ≠ t) (hv : v ≤ s.bal f) :
    ∃ s1, baseTransfer s f t v = some s1 ∧
      s1.bal f = s.bal f - v ∧ s1.bal t = s.bal t + v ∧
      (∀ x, x ≠ f → x ≠ t → s1.bal x = s.bal x) := by
  refine ⟨_, baseTransfer_eq s f t v hft hv, ?_, ?_, ?_⟩
  · simp
  · simp [Ne.symm hft]
  · intro x h1 h2
    simp [h1, h2]

/-- C5: when the payer, recipient and the three fee wallets are pairwise
distinct and the payer can cover the amount: a transfer with either party
fee-exempt delivers the full amount to the recipient and leaves the fee
wallets untouched; a transfer between two non-exempt parties pays the three
wallets exactly the truncated 1% / 0.5% / 0.5% components and delivers the
remainder. -/
theorem transfer_fee_split {k : Nat} (s : TokenState k) (f t : Fin k) (v : Nat)
    (hft : f ≠ t)
    (hfb : f ≠ s.buybackWallet) (hfl : f ≠ s.liquidityWallet)
    (hftr : f ≠ s.treasuryWallet)
    (htb : t ≠ s.buybackWallet) (htl : t ≠ s.liquidityWallet)
    (httr : t ≠ s.treasuryWallet)
    (hbl : s.buybackWallet ≠ s.liquidityWallet)
    (hbt : s.buybackWallet ≠ s.treasuryWallet)
    (hlw : s.liquidityWallet ≠ s.treasuryWallet)
    (hbal : v ≤ s.bal f) :
    ((s.isExcludedFromFee f = true ∨ s.isExcludedFromFee t = true) →
      ∃ s1, tokenTransfer s f t v = some s1 ∧
        s1.bal t = s.bal t + v ∧ s1.bal f = s.bal f - v ∧
        s1.bal s.buybackWallet = s.bal s.buybackWallet ∧
        s1.bal s.liquidityWallet = s.bal s.liquidityWallet ∧
        s1.bal s.treasuryWallet = s.bal s.treasuryWallet) ∧
    (s.isExcludedFromFee f = false → s.isExcludedFromFee t = false →
      ∃ s1, tokenTransfer s f t v = some s1 ∧
        s1.bal s.buybackWallet =
          s.bal s.buybackWallet + v * BUYBACK_FEE / FEE_DENOMINATOR ∧
        s1.bal s.liquidityWallet =
          s.bal s.liquidityWallet + v * LIQUIDITY_FEE / FEE_DENOMINATOR ∧
        s1.bal s.treasuryWallet =
          s.bal s.treasuryWallet + v * TREASURY_FEE / FEE_DENOMINATOR ∧
        s1.bal t = s.bal t +
          (v - (v * BUYBACK_FEE / FEE_DENOMINATOR + v * LIQUIDITY_FEE / FEE_DENOMINATOR +
            v * TREASURY_FEE / FEE_DENOMINATOR)) ∧
        s1.bal f = s.bal f - v) := by
  constructor
  · intro hex
    have hguard : ¬(s.isExcludedFromFee f = false ∧ s.isExcludedFromFee t = false ∧
        0 < v) := by
      rcases hex with h | h <;> simp [h]
    unfold tokenTransfer
    rw [if_neg hguard, baseTransfer_eq s f t v hft hbal]
    refine ⟨_, rfl, ?_, ?_, ?_, ?_, ?_⟩ <;>
      simp [Ne.symm hft, Ne.symm hfb, Ne.symm htb, Ne.symm hfl, Ne.symm htl,
        Ne.symm hftr, Ne.symm httr]
  · intro hf ht
    by_cases hv0 : v = 0
    · subst hv0
      have hguard : ¬(s.isExcludedFromFee f = false ∧ s.isExcludedFromFee t = false ∧
          (0 : Nat) < 0) := by simp
      unfold tokenTransfer
      rw [if_neg hguard, baseTransfer_eq s f t 0 hft (Nat.zero_le _)]
      refine ⟨_, rfl, ?_, ?_, ?_, ?_, ?_⟩ <;>
        simp [Ne.symm hft, Ne.symm hfb, Ne.symm htb, Ne.symm hfl, Ne.symm htl,
          Ne.symm hftr, Ne.symm httr]
    · have hvpos : 0 < v := Nat.pos_of_ne_zero hv0
      have hsumfees : v * BUYBACK_FEE / FEE_DENOMINATOR +
          v * LIQUIDITY_FEE / FEE_DENOMINATOR + v * TREASURY_FEE / FEE_DENOMINATOR ≤ v := by
        simp only [BUYBACK_FEE, LIQUIDITY_FEE, TREASURY_FEE, FEE_DENOMINATOR]
        omega
      obtain ⟨S1, hS1eq, hS1f, hS1w, hS1o⟩ :=
        feeComponentTransfer_some s f s.buybackWallet
          (v * BUYBACK_FEE / FEE_DENOMINATOR) hfb
          (by simp only [BUYBACK_FEE, LIQUIDITY_FEE, TREASURY_FEE, FEE_DENOMINATOR]
                at hsumfees ⊢
              omega)
      obtain ⟨S2, hS2eq, hS2f, hS2w, hS2o⟩ :=
        feeComponentTransfer_some S1 f s.liquidityWallet
          (v * LIQUIDITY_FEE / FEE_DENOMINATOR) hfl
          (by rw [hS1f]
              simp only [BUYBACK_FEE, LIQUIDITY_FEE, TREASURY_FEE, FEE_DENOMINATOR]
                at hsumfees ⊢
              omega)
      obtain ⟨S3, hS3eq, hS3f, hS3w, hS3o⟩ :=
        feeComponentTransfer_some S2 f s.treasuryWallet
          (v * TREASURY_FEE / FEE_DENOMINATOR) hftr
          (by rw [hS2f, hS1f]
              simp only [BUYBACK_FEE, LIQUIDITY_FEE, TREASURY_FEE, FEE_DENOMINATOR]
                at hsumfees ⊢
              omega)
      have hbal3 : ({ S3 with
          totalFees := S3.totalFees + (v * BUYBACK_FEE / FEE_DENOMINATOR +
            v * LIQUIDITY_FEE / FEE_DENOMINATOR + v * TREASURY_FEE / FEE_DENOMINATOR) } :
          TokenState k).bal = S3.bal := rfl
      obtain ⟨S4, hS4eq, hS4f, hS4t, hS4o⟩ :=
        baseTransfer_some
          { S3 with
            totalFees := S3.totalFees + (v * BUYBACK_FEE / FEE_DENOMINATOR +
              v * LIQUIDITY_FEE / FEE_DENOMINATOR + v * TREASURY_FEE / FEE_DENOMINATOR) }
          f t
          (v - (v * BUYBACK_FEE / FEE_DENOMINATOR + v * LIQUIDITY_FEE / FEE_DENOMINATOR +
            v * TREASURY_FEE / FEE_DENOMINATOR))
          hft
          (by rw [hbal3, hS3f, hS2f, hS1f]
              simp only [BUYBACK_FEE, LIQUIDITY_FEE, TREASURY_FEE, FEE_DENOMINATOR]
                at hsumfees ⊢
              omega)
      rw [hbal3] at hS4f hS4t
      simp only [hbal3] at hS4o
      unfold tokenTransfer
      rw [if_pos ⟨hf, ht, hvpos⟩, hS1eq]
      simp only [Option.some_bind]
      rw [hS2eq]
      simp only [Option.some_bind]
      rw [hS3eq]
      simp only [Option.some_bind]
      rw [hS4eq]
      have hw1 : S4.bal s.buybackWallet = s.bal s.buybackWallet +
          v * BUYBACK_FEE / FEE_DENOMINATOR := by
        rw [hS4o s.buybackWallet (Ne.symm hfb) (Ne.symm htb),
          hS3o s.buybackWallet (Ne.symm hfb) hbt,
          hS2o s.buybackWallet (Ne.symm hfb) hbl, hS1w]
      have hw2 : S4.bal s.liquidityWallet = s.bal s.liquidityWallet +
          v * LIQUIDITY_FEE / FEE_DENOMINATOR := by
        rw [hS4o s.liquidityWallet (Ne.symm hfl) (Ne.symm htl),
          hS3o s.liquidityWallet (Ne.symm hfl) hlw, hS2w,
          hS1o s.liquidityWallet (Ne.symm hfl) (Ne.symm hbl)]
      have hw3 : S4.bal s.treasuryWallet = s.bal s.treasuryWallet +
          v * TREASURY_FEE / FEE_DENOMINATOR := by
        rw [hS4o s.treasuryWallet (Ne.symm hftr) (Ne.symm httr), hS3w,
          hS2o s.treasuryWallet (Ne.symm hftr) (Ne.symm hlw),
          hS1o s.treasuryWallet (Ne.symm hftr) (Ne.symm hbt)]
      have hwt : S4.bal t = s.bal t +
          (v - (v * BUYBACK_FEE / FEE_DENOMINATOR + v * LIQUIDITY_FEE / FEE_DENOMINATOR +
            v * TREASURY_FEE / FEE_DENOMINATOR)) := by
        rw [hS4t, hS3o t (Ne.symm hft) httr, hS2o t (Ne.symm hft) htl,
          hS1o t (Ne.symm hft) htb]
      have hwf : S4.bal f = s.bal f - v := by
        rw [hS4f, hS3f, hS2f, hS1f]
        simp only [BUYBACK_FEE, LIQUIDITY_FEE, TREASURY_FEE, FEE_DENOMINATOR]
          at hsumfees ⊢
        omega
      exact ⟨S4, rfl, hw1, hw2, hw3, hwt, hwf⟩

/-- Witness for C5: a 1000-unit transfer between non-exempt accounts 0 and 1
distributes exactly 10 / 5 / 5 to the buyback, liquidity and treasury
wallets and 980 to the recipient. -/
theorem transfer_fee_split_witness :
    ∃ s1, tokenTransfer feeScenarioState 0 1 1000 = some s1 ∧
      s1.bal 2 = 10 ∧ s1.bal 3 = 5 ∧ s1.bal 4 = 5 ∧ s1.bal 1 = 980 ∧ s1.bal 0 = 0 := by
  obtain ⟨s1, heq, h1, h2, h3, h4, h5⟩ :=
    (transfer_fee_split feeScenarioState 0 1 1000 (by decide) (by decide) (by decide)
      (by decide) (by decide) (by decide) (by decide) (by decide) (by decide) (by decide)
      (by decide)).2 rfl rfl
  refine ⟨s1, heq, ?_, ?_, ?_, ?_, ?_⟩
  · simpa [feeScenarioState, BUYBACK_FEE, FEE_DENOMINATOR] using h1
  · simpa [feeScenarioState, LIQUIDITY_FEE, FEE_DENOMINATOR] using h2
  · simpa [feeScenarioState, TREASURY_FEE, FEE_DENOMINATOR] using h3
  · simpa [feeScenarioState, BUYBACK_FEE, LIQUIDITY_FEE, TREASURY_FEE,
      FEE_DENOMINATOR] using h4
  · simpa [feeScenarioState] using h5

/-- As the block height advances with a proposal's stored fields unchanged,
its state only moves forward. -/
theorem proposalState_mono (p : Proposal) {b b1 : Nat} (h : b ≤ b1) :
    forwardStep (proposalState p b) (proposalState p b1) := by
  unfold proposalState
  by_cases hc : p.canceled
  · simp only [if_pos hc]
    exact Or.inl rfl
  by_cases he : p.executed
  · simp only [if_neg hc, if_pos he]
    exact Or.inl rfl
  simp only [if_neg hc, if_neg he]
  by_cases h1 : b ≤ p.startBlock
  · rw [if_pos h1]
    by_cases h2 : b1 ≤ p.startBlock
    · rw [if_pos h2]
      exact Or.inl rfl
    · rw [if_neg h2]
      by_cases h3 : b1 ≤ p.endBlock
      · rw [if_pos h3]
        decide
      · rw [if_neg h3]
        split_ifs <;> decide
  · rw [if_neg h1, if_neg (by omega : ¬b1 ≤ p.startBlock)]
    by_cases h2 : b ≤ p.endBlock
    · rw [if_pos h2]
      by_cases h3 : b1 ≤ p.endBlock
      · rw [if_pos h3]
        exact Or.inl rfl
      · rw [if_neg h3]
        split_ifs <;> decide
    · rw [if_neg h2, if_neg (by omega : ¬b1 ≤ p.endBlock)]
      split_ifs <;> exact Or.inl rfl

/-- Field conditions that an `Active` state implies. -/
theorem proposalState_active_fields {p : Proposal} {b : Nat}
    (h : proposalState p b = PState.Active) :
    p.canceled = false ∧ p.executed = false ∧ ¬b ≤ p.startBlock ∧ b ≤ p.endBlock := by
  unfold proposalState at h
  split_ifs at h with h1 h2 h3 h4 <;> simp_all

/-- Field conditions that a `Succeeded` state implies. -/
theorem proposalState_succeeded_fields {p : Proposal} {b : Nat}
    (h : proposalState p b = PState.Succeeded) :
    p.canceled = false ∧ p.executed = false := by
  unfold proposalState at h
  split_ifs at h with h1 h2 h3 h4 <;> simp_all

/-- Look up a proposal through a state whose proposal list is known. -/
theorem getProposal_congr {g1 : GovState} {l : List Proposal} {pid : Nat} {p : Proposal}
    (hpid : 1 ≤ pid) (hl : g1.proposals = l) (hp : l[pid - 1]? = some p) :
    getProposal g1 pid = some p := by
  unfold getProposal
  rw [if_pos hpid, hl]
  exact hp

/-- Case analysis of one governance step as seen by an existing proposal
`pid`: either the proposal is untouched and the block height does not
decrease, or (at unchanged height) a vote is recorded on it while `Active`,
it is executed from `Succeeded`, or it is canceled from a non-`Executed`
state. -/
theorem govStep_cases (g : GovState) (op : GovOp) (pid : Nat) (p : Proposal)
    (hp : getProposal g pid = some p) :
    ∃ p1, getProposal (govStep g op) pid = some p1 ∧
      ((p1 = p ∧ g.blockNumber ≤ (govStep g op).blockNumber) ∨
       ((govStep g op).blockNumber = g.blockNumber ∧
        proposalState p g.blockNumber = PState.Active ∧
        p1.startBlock = p.startBlock ∧ p1.endBlock = p.endBlock ∧
        p1.executed = p.executed ∧ p1.canceled = p.canceled ∧
        ∃ v r, (p.receipts v).hasVoted = false ∧
          p1.receipts = Function.update p.receipts v r) ∨
       ((govStep g op).blockNumber = g.blockNumber ∧
        proposalState p g.blockNumber = PState.Succeeded ∧
        p1 = { p with executed := true }) ∨
       ((govStep g op).blockNumber = g.blockNumber ∧
        proposalState p g.blockNumber ≠ PState.Executed ∧
        p1 = { p with canceled := true })) := by
  have hp0 := hp
  unfold getProposal at hp0
  have hpid : 1 ≤ pid := by
    by_contra hn
    rw [if_neg hn] at hp0
    exact absurd hp0 (by simp)
  rw [if_pos hpid] at hp0
  have hlen : pid - 1 < g.proposals.length := (List.getElem?_eq_some.mp hp0).1
  cases op with
  | advanceBlocks n =>
    exact ⟨p, getProposal_congr hpid rfl hp0,
      Or.inl ⟨rfl, Nat.le_add_right _ _⟩⟩
  | setBalances f ts =>
    exact ⟨p, getProposal_congr hpid rfl hp0, Or.inl ⟨rfl, Nat.le_refl _⟩⟩
  | setStakingContract sender a =>
    simp only [govStep, govApply]
    split_ifs <;>
      exact ⟨p, getProposal_congr hpid rfl hp0, Or.inl ⟨rfl, Nat.le_refl _⟩⟩
  | setVotingParameters sender d pr th q =>
    simp only [govStep, govApply]
    split_ifs <;>
      exact ⟨p, getProposal_congr hpid rfl hp0, Or.inl ⟨rfl, Nat.le_refl _⟩⟩
  | propose sender title description =>
    simp only [govStep, govApply]
    split_ifs with hth
    · exact ⟨p, getProposal_congr hpid rfl hp0, Or.inl ⟨rfl, Nat.le_refl _⟩⟩
    · refine ⟨p, getProposal_congr hpid rfl ?_, Or.inl ⟨rfl, Nat.le_refl _⟩⟩
      rw [List.getElem?_append_left hlen]
      exact hp0
  | castVote sender pid1 support =>
    simp only [govStep, govApply]
    cases hq : getProposal g pid1 with
    | none =>
      simp only [hq]
      exact ⟨p, getProposal_congr hpid rfl hp0, Or.inl ⟨rfl, Nat.le_refl _⟩⟩
    | some q =>
      have hpid1 : 1 ≤ pid1 := by
        unfold getProposal at hq
        split_ifs at hq with h
        exact h
      simp only [hq]
      split_ifs with hA hV hPow
      · exact ⟨p, getProposal_congr hpid rfl hp0, Or.inl ⟨rfl, Nat.le_refl _⟩⟩
      · exact ⟨p, getProposal_congr hpid rfl hp0, Or.inl ⟨rfl, Nat.le_refl _⟩⟩
      · exact ⟨p, getProposal_congr hpid rfl hp0, Or.inl ⟨rfl, Nat.le_refl _⟩⟩
      · by_cases hpp : pid = pid1
        · subst hpp
          rw [hp] at hq
          have hqp : q = p := (Option.some.inj hq).symm
          subst hqp
          have hVf : (q.receipts sender).hasVoted = false := by simpa using hV
          refine ⟨_, getProposal_congr hpid rfl
            (List.getElem?_set_eq_of_lt _ hlen), Or.inr (Or.inl ?_)⟩
          refine ⟨rfl, not_ne_iff.mp hA, ?_, ?_, ?_, ?_, sender,
            { hasVoted := true, support := support, votes := g.power sender },
            hVf, ?_⟩ <;>
            cases support <;> rfl
        · refine ⟨p, getProposal_congr hpid rfl ?_, Or.inl ⟨rfl, Nat.le_refl _⟩⟩
          rw [List.getElem?_set_ne (by omega)]
          exact hp0
  | execute sender pid1 =>
    simp only [govStep, govApply]
    cases hq : getProposal g pid1 with
    | none =>
      simp only [hq]
      exact ⟨p, getProposal_congr hpid rfl hp0, Or.inl ⟨rfl, Nat.le_refl _⟩⟩
    | some q =>
      have hpid1 : 1 ≤ pid1 := by
        unfold getProposal at hq
        split_ifs at hq with h
        exact h
      simp only [hq]
      split_ifs with hS
      · exact ⟨p, getProposal_congr hpid rfl hp0, Or.inl ⟨rfl, Nat.le_refl _⟩⟩
      · by_cases hpp : pid = pid1
        · subst hpp
          rw [hp] at hq
          have hqp : q = p := (Option.some.inj hq).symm
          subst hqp
          exact ⟨_, getProposal_congr hpid rfl
            (List.getElem?_set_eq_of_lt _ hlen),
            Or.inr (Or.inr (Or.inl ⟨rfl, not_ne_iff.mp hS, rfl⟩))⟩
        · refine ⟨p, getProposal_congr hpid rfl ?_, Or.inl ⟨rfl, Nat.le_refl _⟩⟩
          rw [List.getElem?_set_ne (by omega)]
          exact hp0
  | cancel sender pid1 =>
    simp only [govStep, govApply]
    cases hq : getProposal g pid1 with
    | none =>
      simp only [hq]
      exact ⟨p, getProposal_congr hpid rfl hp0, Or.inl ⟨rfl, Nat.le_refl _⟩⟩
    | some q =>
      have hpid1 : 1 ≤ pid1 := by
        unfold getProposal at hq
        split_ifs at hq with h
        exact h
      simp only [hq]
      split_ifs with hAuth hE
      · exact ⟨p, getProposal_congr hpid rfl hp0, Or.inl ⟨rfl, Nat.le_refl _⟩⟩
      · exact ⟨p, getProposal_congr hpid rfl hp0, Or.inl ⟨rfl, Nat.le_refl _⟩⟩
      · by_cases hpp : pid = pid1
        · subst hpp
          rw [hp] at hq
          have hqp : q = p := (Option.some.inj hq).symm
          subst hqp
          exact ⟨_, getProposal_congr hpid rfl
            (List.getElem?_set_eq_of_lt _ hlen),
            Or.inr (Or.inr (Or.inr ⟨rfl, hE, rfl⟩))⟩
        · refine ⟨p, getProposal_congr hpid rfl ?_, Or.inl ⟨rfl, Nat.le_refl _⟩⟩
          rw [List.getElem?_set_ne (by omega)]
          exact hp0

/-- C8: once an address has a recorded receipt on a proposal, any further
`castVote` by it on that proposal is rejected (with `AlreadyVoted` whenever
the proposal is still `Active`), and no governance operation ever changes
that recorded receipt. -/
theorem vote_receipt_immutable (g : GovState) (pid sender : Nat) (support : VoteType)
    (p : Proposal) (hp : getProposal g pid = some p)
    (hv : (p.receipts sender).hasVoted = true) :
    (∃ e, govApply g (GovOp.castVote sender pid support) = Except.error e) ∧
    (proposalState p g.blockNumber = PState.Active →
      govApply g (GovOp.castVote sender pid support) = Except.error GovErr.alreadyVoted) ∧
    (∀ op, ∃ p1, getProposal (govStep g op) pid = some p1 ∧
      p1.receipts sender = p.receipts sender) := by
  refine ⟨?_, ?_, ?_⟩
  · simp only [govApply, hp]
    by_cases hA : proposalState p g.blockNumber ≠ PState.Active
    · rw [if_pos hA]
      exact ⟨_, rfl⟩
    · rw [if_neg hA, if_pos hv]
      exact ⟨_, rfl⟩
  · intro hAct
    simp only [govApply, hp]
    rw [if_neg (not_ne_iff.mpr hAct), if_pos hv]
  · intro op
    obtain ⟨p1, hp1, hcase⟩ := govStep_cases g op pid p hp
    refine ⟨p1, hp1, ?_⟩
    rcases hcase with ⟨hep, _⟩ | ⟨_, _, _, _, _, _, v, r, hvf, hrec⟩ |
      ⟨_, _, hep⟩ | ⟨_, _, hep⟩
    · rw [hep]
    · rw [hrec]
      have hvs : v ≠ sender := by
        intro he
        subst he
        exact absurd (hv.symm.trans hvf) (by decide)
      exact Function.update_noteq (Ne.symm hvs) _ _
    · rw [hep]
    · rw [hep]

/-- Witness for C8: on `votedGovState` (address 0 already holds a For
receipt on proposal 1, still in its voting window) a second vote with a
different vote type is rejected with `AlreadyVoted`. -/
theorem vote_receipt_immutable_witness :
    govApply votedGovState (GovOp.castVote 0 1 VoteType.Against) =
      Except.error GovErr.alreadyVoted :=
  (vote_receipt_immutable votedGovState 1 0 VoteType.Against votedProposal rfl rfl).2.1
    (by decide)

/-- C9: every governance operation (including block advancement) moves every
existing proposal's state only along the forward relation: unchanged, along
Pending → Active → {Succeeded, Defeated} → Executed (with Executed reachable
only past Succeeded), or to Canceled from a non-Executed state. -/
theorem proposal_state_forward (g : GovState) (op : GovOp) (pid : Nat) (p : Proposal)
    (hp : getProposal g pid = some p) :
    ∃ p1, getProposal (govStep g op) pid = some p1 ∧
      forwardStep (proposalState p g.blockNumber)
        (proposalState p1 (govStep g op).blockNumber) := by
  obtain ⟨p1, hp1, hcase⟩ := govStep_cases g op pid p hp
  refine ⟨p1, hp1, ?_⟩
  rcases hcase with ⟨hep, hble⟩ | ⟨hbeq, hAct, hsb, heb, hex, hcanc, v, r, hvf, hrec⟩ |
    ⟨hbeq, hS, hep⟩ | ⟨hbeq, hE, hep⟩
  · rw [hep]
    exact proposalState_mono p hble
  · rw [hbeq]
    obtain ⟨hc, he, h1, h2⟩ := proposalState_active_fields hAct
    have hact1 : proposalState p1 g.blockNumber = PState.Active := by
      unfold proposalState
      rw [hcanc, hc, hex, he, hsb, heb]
      simp [h1, h2]
    rw [hact1, hAct]
    exact Or.inl rfl
  · rw [hbeq, hep]
    obtain ⟨hc, he⟩ := proposalState_succeeded_fields hS
    have hexec : proposalState { p with executed := true } g.blockNumber =
        PState.Executed := by
      unfold proposalState
      simp [hc]
    rw [hexec, hS]
    exact Or.inr (Or.inr (by decide))
  · rw [hbeq, hep]
    have hcanc1 : proposalState { p with canceled := true } g.blockNumber =
        PState.Canceled := by
      unfold proposalState
      simp
    rw [hcanc1]
    exact Or.inr (Or.inl ⟨rfl, hE⟩)

/-- Witness for C9: advancing `votedGovState` past the voting window moves
proposal 1 forward (from Active to Defeated). -/
theorem proposal_state_forward_witness :
    ∃ p1, getProposal (govStep votedGovState (GovOp.advanceBlocks 6)) 1 = some p1 ∧
      forwardStep (proposalState votedProposal votedGovState.blockNumber)
        (proposalState p1 (govStep votedGovState (GovOp.advanceBlocks 6)).blockNumber) :=
  proposal_state_forward votedGovState (GovOp.advanceBlocks 6) 1 votedProposal rfl
